import Mathlib

/-!
Verification of the URLTester concurrent URL prober.

The repository contains two alternative implementations:
* `src/core/scanner.py` — an async scanner (`URLScanner`) with a semaphore-bounded
  `_fetch`, a filter-based classifier `_is_valid_result`, and a `run` orchestrator;
* `src/main.py` — a threaded tester (`URLTester`) with `test_single_url`,
  a `status != 404` accept criterion, and shared `tested_count` / `error_count`.

This file shallowly embeds both: Python dicts become structures (the possibly
missing `content` key becomes an `Option` field and reading it is fallible),
byte strings become `List Nat`, HTTP statuses become a tagged union mirroring
the `int` / `"TIMEOUT"` / `"ERROR"` sentinel values, and the semaphore-gated
dispatch of `run` becomes a small-step relation.
-/

/-- The `status` field of a fetch result: a concrete integer HTTP code, or one
of the two sentinel values `"TIMEOUT"` / `"ERROR"` used by `URLScanner._fetch`. -/
inductive PStatus where
  | httpStatus (code : Int)
  | timeout
  | networkError
deriving DecidableEq, Repr

/-- The dictionary returned by `URLScanner._fetch`.  The `content` key is absent
on the timeout and network-error paths, hence an `Option` field here. -/
structure FetchResult where
  url : String
  status : PStatus
  content_length : Nat
  content : Option (List Nat)
deriving DecidableEq, Repr

/-- The `filters` section of the configuration consumed by
`URLScanner._is_valid_result`. -/
structure FilterConfig where
  include_status_codes : List Int
  exclude_status_codes : List Int
  min_content_length : Int
  exclude_keywords : List (List Nat)
deriving DecidableEq, Repr

/-- ASCII lower-casing of one byte, as done by Python `bytes.lower()`. -/
def lowerByte (b : Nat) : Nat :=
  if 65 ≤ b ∧ b ≤ 90 then b + 32 else b

/-- `startsWithB needle hay`: `needle` is a prefix of the byte string `hay`. -/
def startsWithB : List Nat → List Nat → Bool
  | [], _ => true
  | _ :: _, [] => false
  | a :: xs, b :: ys => a == b && startsWithB xs ys

/-- `hasSub needle hay`: Python `needle in hay` for byte strings — `needle`
occurs as a contiguous substring of `hay` (the empty needle always occurs). -/
def hasSub (needle : List Nat) : List Nat → Bool
  | [] => startsWithB needle []
  | b :: ys => startsWithB needle (b :: ys) || hasSub needle ys

/-- The keyword loop of `URLScanner._is_valid_result`:
`for keyword in filters['exclude_keywords']: if keyword.encode('utf-8').lower()
in result['content']: return False`.  Each iteration reads `result['content']`;
if the key is absent that read raises `KeyError`, modelled as `none`. -/
def keywordScan (content : Option (List Nat)) : List (List Nat) → Option Bool
  | [] => some true
  | kw :: rest =>
    match content with
    | none => none
    | some body =>
      if hasSub (kw.map lowerByte) body then some false
      else keywordScan content rest

/-- `URLScanner._is_valid_result`, line by line: reject non-integer statuses;
reject when `include_status_codes` is non-empty (Python truthiness) and the
status is not a member; reject members of `exclude_status_codes`; reject
`content_length <= min_content_length`; then run the keyword loop.
`none` marks an uncaught `KeyError` on the missing `content` key. -/
def is_valid_result (f : FilterConfig) (r : FetchResult) : Option Bool :=
  match r.status with
  | .timeout => some false
  | .networkError => some false
  | .httpStatus n =>
    if f.include_status_codes ≠ [] ∧ n ∉ f.include_status_codes then some false
    else if n ∈ f.exclude_status_codes then some false
    else if (r.content_length : Int) ≤ f.min_content_length then some false
    else keywordScan r.content f.exclude_keywords

/-- The three ways one `session.get` inside `URLScanner._fetch` can end:
a completed HTTP exchange (status plus raw body bytes), `asyncio.TimeoutError`,
or `aiohttp.ClientError`. -/
inductive NetResult where
  | ok (status : Int) (body : List Nat)
  | timedOut
  | clientError
deriving DecidableEq, Repr

/-- `URLScanner._fetch` as a function of the network's answer: on success it
records the status, the raw body length, and the lower-cased body under
`content`; on timeout it returns `{"url": url, "status": "TIMEOUT",
"content_length": 0}` (no `content` key), and likewise `"ERROR"` for
`aiohttp.ClientError`. -/
def fetchOutcome (url : String) : NetResult → FetchResult
  | .ok st body => ⟨url, .httpStatus st, body.length, some (body.map lowerByte)⟩
  | .timedOut => ⟨url, .timeout, 0, none⟩
  | .clientError => ⟨url, .networkError, 0, none⟩

/-- The accepted-results sequence built by `URLScanner.run`: outcomes, in
completion order, for which `_is_valid_result` returned `True` are appended
to `self.results`. -/
def accepted_results (f : FilterConfig) (outcomes : List FetchResult) :
    List FetchResult :=
  outcomes.filter (fun r => decide (is_valid_result f r = some true))

/-- The five filter rules of `_is_valid_result`, named in their source order:
integer-status check, include list, exclude list, minimum length, keyword scan. -/
inductive Rule where
  | statusIsInt
  | includeList
  | excludeList
  | minLength
  | keywordSearch
deriving DecidableEq, Repr

/-- Python membership `status in l` for a status against a list of ints: a
non-integer status (the `"TIMEOUT"` / `"ERROR"` strings) is never a member. -/
def statusMem (s : PStatus) (l : List Int) : Bool :=
  match s with
  | .httpStatus n => decide (n ∈ l)
  | .timeout => false
  | .networkError => false

/-- One rule of `_is_valid_result` evaluated in isolation on an outcome (the
keyword rule reads the stored body bytes, empty when no body was retained). -/
def evalRule (f : FilterConfig) (r : FetchResult) : Rule → Bool
  | .statusIsInt =>
      match r.status with
      | .httpStatus _ => true
      | _ => false
  | .includeList =>
      decide (f.include_status_codes = []) ||
        statusMem r.status f.include_status_codes
  | .excludeList => !statusMem r.status f.exclude_status_codes
  | .minLength => decide (f.min_content_length < (r.content_length : Int))
  | .keywordSearch =>
      f.exclude_keywords.all
        (fun kw => !hasSub (kw.map lowerByte) (r.content.getD []))

/-- The fixed evaluation order of the rules in `_is_valid_result`. -/
def rules_in_order : List Rule :=
  [.statusIsInt, .includeList, .excludeList, .minLength, .keywordSearch]

/-- The accept criterion of the `URLTester.test_urls` loop in `src/main.py`:
`if success and status_code != 404`. -/
def simple_accept (status_code : Int) (success : Bool) : Bool :=
  success && !(status_code == 404)

/-- Python `str.strip()` with no argument: remove leading and trailing
whitespace characters. -/
def pyStrip (s : String) : String :=
  ⟨((s.data.dropWhile Char.isWhitespace).reverse.dropWhile
      Char.isWhitespace).reverse⟩

/-- The wordlist comprehension shared by `URLScanner.run` and
`URLTester.load_wordlist`: `[line.strip() for line in f if line.strip()]`. -/
def load_words (lines : List String) : List String :=
  (lines.filter (fun l => decide (pyStrip l ≠ ""))).map pyStrip

/-- The target URLs built by `URLScanner.run`: `url = f"{base_url}/{word}"`,
one per surviving wordlist entry. -/
def scan_targets (base : String) (lines : List String) : List String :=
  (load_words lines).map (fun w => base ++ "/" ++ w)

/-- The shared mutable state of `URLTester`: `found_urls`, `tested_count`,
`error_count` (`src/main.py`, `__init__`). -/
structure AggState where
  found : List (String × Int)
  tested : Nat
  errors : Nat
deriving DecidableEq, Repr

/-- One iteration of the `as_completed` loop in `URLTester.test_urls`:
`tested_count += 1` unconditionally; on `success and status_code != 404` the
result is appended to `found_urls`; `elif not success: error_count += 1`. -/
def agg_step (s : AggState) (r : String × Int × Bool) : AggState :=
  if r.2.2 && !(r.2.1 == 404) then
    ⟨s.found ++ [(r.1, r.2.1)], s.tested + 1, s.errors⟩
  else if !r.2.2 then
    ⟨s.found, s.tested + 1, s.errors + 1⟩
  else
    ⟨s.found, s.tested + 1, s.errors⟩

/-- The whole `as_completed` loop: the completed outcomes, in completion order,
folded through `agg_step` starting from the freshly initialised counters. -/
def run_agg (rs : List (String × Int × Bool)) : AggState :=
  rs.foldl agg_step ⟨[], 0, 0⟩

/-- `URLTester.test_urls` at the process level, as a function of the wordlist
resource (`none` = missing/unreadable file) and of one probe outcome per word.
Returns (process exit code, number of requests attempted, final state):
`load_wordlist` calls `sys.exit(1)` before the executor block on a missing
file; otherwise every surviving word is probed and aggregated and `main`
finishes with exit status 0. -/
def main_run (file : Option (List String))
    (probe : String → String × Int × Bool) : Nat × Nat × AggState :=
  match file with
  | none => (1, 0, ⟨[], 0, 0⟩)
  | some lines => (0, (load_words lines).length,
      run_agg ((load_words lines).map probe))

/-- `URLScanner.run` at the process level, as a function of the wordlist
resource and of the network's answer per target URL.  Returns (process exit
code, number of requests attempted, accepted results): on a missing wordlist
the `except FileNotFoundError` branch logs and `return`s — the coroutine ends
normally, so the process exit code stays 0 and no request is issued. -/
def scanner_run (f : FilterConfig) (base : String)
    (file : Option (List String)) (net : String → NetResult) :
    Nat × Nat × List FetchResult :=
  match file with
  | none => (0, 0, [])
  | some lines => (0, (scan_targets base lines).length,
      accepted_results f
        ((scan_targets base lines).map (fun u => fetchOutcome u (net u))))

/-- A scheduler state for the semaphore-gated dispatch of `URLScanner.run`:
targets not yet started, targets holding the semaphore (in flight), finished
outcomes in completion order, and the semaphore's free permit count. -/
structure Sched where
  waiting : List String
  inFlight : List String
  done : List FetchResult
  permits : Nat
deriving DecidableEq, Repr

/-- Small-step semantics of `async with semaphore: session.get(...)` in
`_fetch`: a task may start only by consuming a free permit (`acquire`), and a
finishing task releases its permit (`release`) and appends its outcome, the
function `F` of its target.  Tasks may finish in any order. -/
inductive SchedStep (F : String → FetchResult) : Sched → Sched → Prop
  | start (t : String) (w fl : List String) (d : List FetchResult) (p : Nat) :
      SchedStep F ⟨t :: w, fl, d, p + 1⟩ ⟨w, t :: fl, d, p⟩
  | finish (w fl₁ : List String) (t : String) (fl₂ : List String)
      (d : List FetchResult) (p : Nat) :
      SchedStep F ⟨w, fl₁ ++ t :: fl₂, d, p⟩ ⟨w, fl₁ ++ fl₂, F t :: d, p + 1⟩

/-- Initial scheduler state: all targets waiting,
`asyncio.Semaphore(concurrency)` full. -/
def initSched (targets : List String) (n : Nat) : Sched :=
  ⟨targets, [], [], n⟩

/-- A concrete mock transport (every URL answers 200 with body `"h"`), used
only to exercise the theorems on concrete runs. -/
def probeF : String → FetchResult :=
  fun u => fetchOutcome u (.ok 200 [104])

/-- Lemma: the keyword loop over a present body terminates with `true` exactly
when no lowered keyword occurs in the body. -/
theorem keywordScan_some (body : List Nat) (ks : List (List Nat)) :
    keywordScan (some body) ks =
      some (ks.all (fun kw => !hasSub (kw.map lowerByte) body)) := by
  induction ks with
  | nil => rfl
  | cons kw rest ih =>
    simp only [keywordScan, List.all_cons]
    by_cases h : hasSub (kw.map lowerByte) body
    · simp [h]
    · simp [h, ih]

/-- C1: for an outcome carrying a concrete integer HTTP status, the classifier
accepts iff (the status is allowed by `include_status_codes` or that list is
empty) and the status is not excluded and `content_length` strictly exceeds
`min_content_length` and no case-folded keyword occurs in the (stored,
lower-cased) body; and an outcome whose `content_length` equals
`min_content_length` is rejected. -/
theorem classifier_accepts_iff (f : FilterConfig) (url : String) (n : Int)
    (len : Nat) (body : List Nat) :
    (is_valid_result f ⟨url, .httpStatus n, len, some body⟩ = some true ↔
      ((f.include_status_codes = [] ∨ n ∈ f.include_status_codes) ∧
        n ∉ f.exclude_status_codes ∧
        f.min_content_length < (len : Int) ∧
        ∀ kw ∈ f.exclude_keywords, hasSub (kw.map lowerByte) body = false)) ∧
    ((len : Int) = f.min_content_length →
      is_valid_result f ⟨url, .httpStatus n, len, some body⟩ = some false) := by
  constructor
  · simp only [is_valid_result, keywordScan_some]
    by_cases h1 : f.include_status_codes ≠ [] ∧ n ∉ f.include_status_codes
    · simp only [if_pos h1]
      constructor
      · intro h; cases h
      · intro ⟨ha, _⟩
        rcases ha with ha | ha
        · exact absurd ha h1.1
        · exact absurd ha h1.2
    · simp only [if_neg h1]
      push_neg at h1
      by_cases h2 : n ∈ f.exclude_status_codes
      · simp only [if_pos h2]
        constructor
        · intro h; cases h
        · intro ⟨_, hb, _⟩; exact absurd h2 hb
      · simp only [if_neg h2]
        by_cases h3 : (len : Int) ≤ f.min_content_length
        · simp only [if_pos h3]
          constructor
          · intro h; cases h
          · intro ⟨_, _, hc, _⟩; omega
        · simp only [if_neg h3]
          push_neg at h3
          constructor
          · intro h
            refine ⟨?_, h2, h3, ?_⟩
            · by_cases hinc : f.include_status_codes = []
              · exact Or.inl hinc
              · exact Or.inr (h1 hinc)
            · intro kw hkw
              have := (Option.some.injEq _ _).mp h
              rw [List.all_eq_true] at this
              simpa using this kw hkw
          · intro ⟨_, _, _, hd⟩
            congr 1
            rw [List.all_eq_true]
            intro kw hkw
            simp [hd kw hkw]
  · intro heq
    simp only [is_valid_result]
    by_cases h1 : f.include_status_codes ≠ [] ∧ n ∉ f.include_status_codes
    · simp [h1]
    · simp only [if_neg h1]
      by_cases h2 : n ∈ f.exclude_status_codes
      · simp [h2]
      · simp only [if_neg h2]
        have h3 : (len : Int) ≤ f.min_content_length := le_of_eq heq
        simp [h3]

/-- Witness for `classifier_accepts_iff` at a concrete boundary input:
`content_length = min_content_length = 10` is rejected. -/
theorem classifier_accepts_iff_witness :
    (((10 : Nat) : Int) = (10 : Int)) ∧
      is_valid_result ⟨[200], [404], 10, [[97]]⟩
        ⟨"u", .httpStatus 200, 10, some []⟩ = some false :=
  ⟨by decide, (classifier_accepts_iff ⟨[200], [404], 10, [[97]]⟩ "u" 200 10
    []).2 (by decide)⟩

/-- C6: a timed-out request yields the outcome with status `TIMEOUT`,
`content_length = 0` and no body bytes; a network-layer failure yields status
`ERROR` with `content_length = 0`; and the two status variants are distinct. -/
theorem fetch_failure_outcomes (url : String) :
    fetchOutcome url .timedOut =
      ⟨url, .timeout, 0, none⟩ ∧
    (fetchOutcome url .timedOut).content.getD [] = [] ∧
    fetchOutcome url .clientError =
      ⟨url, .networkError, 0, none⟩ ∧
    PStatus.timeout ≠ PStatus.networkError := by
  refine ⟨rfl, rfl, rfl, ?_⟩
  intro h
  cases h

/-- C10: on every dictionary `_fetch` can return, `_is_valid_result` evaluates
totally (never `none`, i.e. never a `KeyError` on the missing `content` key),
and `_fetch` includes a `content` field exactly when the status it records is
an integer HTTP code. -/
theorem classifier_total_on_fetch (f : FilterConfig) (url : String)
    (net : NetResult) :
    (is_valid_result f (fetchOutcome url net)).isSome = true ∧
      ((fetchOutcome url net).content.isSome = true ↔
        ∃ n, (fetchOutcome url net).status = .httpStatus n) := by
  cases net with
  | ok st body =>
    refine ⟨?_, by simp [fetchOutcome]⟩
    simp only [fetchOutcome, is_valid_result]
    by_cases h1 : f.include_status_codes ≠ [] ∧ st ∉ f.include_status_codes
    · simp [h1]
    · simp only [if_neg h1]
      by_cases h2 : st ∈ f.exclude_status_codes
      · simp [h2]
      · simp only [if_neg h2]
        by_cases h3 : ((body.length : Nat) : Int) ≤ f.min_content_length
        · simp [h3]
        · simp only [if_neg h3, keywordScan_some, Option.isSome_some]
  | timedOut =>
    refine ⟨by simp [fetchOutcome, is_valid_result], ?_⟩
    simp only [fetchOutcome, Option.isSome_none]
    constructor
    · intro h; cases h
    · intro ⟨n, h⟩; cases h
  | clientError =>
    refine ⟨by simp [fetchOutcome, is_valid_result], ?_⟩
    simp only [fetchOutcome, Option.isSome_none]
    constructor
    · intro h; cases h
    · intro ⟨n, h⟩; cases h

/-- C3: no outcome whose status is `TIMEOUT` or `ERROR` ever appears in the
accepted-results sequence, for any filter configuration and any completion
order of outcomes. -/
theorem no_failure_in_accepted (f : FilterConfig)
    (outcomes : List FetchResult) (r : FetchResult)
    (hmem : r ∈ accepted_results f outcomes) :
    r.status ≠ PStatus.timeout ∧ r.status ≠ PStatus.networkError := by
  have hval : is_valid_result f r = some true := by
    have := List.of_mem_filter hmem
    simpa using this
  constructor
  · intro hst
    rw [is_valid_result, hst] at hval
    cases hval
  · intro hst
    rw [is_valid_result, hst] at hval
    cases hval

/-- Witness for `no_failure_in_accepted`: a concrete accepted outcome. -/
theorem no_failure_in_accepted_witness :
    (⟨"u", .httpStatus 200, 5, some []⟩ : FetchResult) ∈
      accepted_results ⟨[], [], 0, []⟩ [⟨"u", .httpStatus 200, 5, some []⟩] ∧
    (⟨"u", .httpStatus 200, 5, some []⟩ : FetchResult).status ≠
      PStatus.timeout :=
  ⟨by decide,
    (no_failure_in_accepted ⟨[], [], 0, []⟩
      [⟨"u", .httpStatus 200, 5, some []⟩]
      ⟨"u", .httpStatus 200, 5, some []⟩ (by decide)).1⟩

/-- Helper: every iteration of the `as_completed` loop increments
`tested_count` by exactly one. -/
theorem agg_step_tested (s : AggState) (r : String × Int × Bool) :
    (agg_step s r).tested = s.tested + 1 := by
  rcases r with ⟨u, st, succ⟩
  cases succ
  · simp [agg_step]
  · by_cases h : (st == 404) = true
    · simp [agg_step, h]
    · simp [agg_step, h]

/-- Helper: every iteration of the `as_completed` loop increments
`error_count` by exactly one on a failed outcome and leaves it unchanged on a
successful one. -/
theorem agg_step_errors (s : AggState) (r : String × Int × Bool) :
    (agg_step s r).errors = s.errors + (if r.2.2 = true then 0 else 1) := by
  rcases r with ⟨u, st, succ⟩
  cases succ
  · simp [agg_step]
  · by_cases h : (st == 404) = true
    · simp [agg_step, h]
    · simp [agg_step, h]

/-- Helper: a fold through `agg_step` adds the outcome count to `tested`
and the failed-outcome count to `errors`, from any starting state. -/
theorem run_agg_counts (rs : List (String × Int × Bool)) :
    ∀ init : AggState,
      (rs.foldl agg_step init).tested = init.tested + rs.length ∧
      (rs.foldl agg_step init).errors =
        init.errors + (rs.filter (fun r => !r.2.2)).length := by
  induction rs with
  | nil => intro init; simp
  | cons r rest ih =>
    intro init
    constructor
    · rw [List.foldl_cons, (ih (agg_step init r)).1, agg_step_tested]
      simp only [List.length_cons]
      omega
    · rw [List.foldl_cons, (ih (agg_step init r)).2, agg_step_errors]
      rcases r with ⟨u, st, succ⟩
      cases succ
      · simp [List.filter_cons]
        omega
      · simp [List.filter_cons]

/-- C8: provided the completion order is some permutation of the one outcome
per word, `tested_count` ends equal to the number of words and `error_count`
equal to the number of failed probes; and each loop iteration increments
`tested_count` by exactly one and `error_count` by exactly one on failure and
zero on success (the increments run serially in the `as_completed` loop). -/
theorem counters_count_outcomes (words : List String)
    (probe : String → String × Int × Bool)
    (rs : List (String × Int × Bool))
    (hperm : List.Perm rs (words.map probe)) :
    (run_agg rs).tested = words.length ∧
    (run_agg rs).errors =
      ((words.map probe).filter (fun r => !r.2.2)).length ∧
    ∀ (s : AggState) (r : String × Int × Bool),
      (agg_step s r).tested = s.tested + 1 ∧
      (agg_step s r).errors = s.errors + (if r.2.2 = true then 0 else 1) := by
  have hc := run_agg_counts rs ⟨[], 0, 0⟩
  refine ⟨?_, ?_, ?_⟩
  · rw [run_agg, hc.1, hperm.length_eq, List.length_map]
    simp
  · rw [run_agg, hc.2, (hperm.filter _).length_eq]
    simp
  · intro s r
    exact ⟨agg_step_tested s r, agg_step_errors s r⟩

/-- Witness for `counters_count_outcomes` on a concrete two-word run with one
failure, taking the completion order reversed from submission order. -/
theorem counters_count_outcomes_witness :
    List.Perm [("b", (0 : Int), false), ("a", (200 : Int), true)]
      (["a", "b"].map (fun w =>
        if w = "a" then ("a", (200 : Int), true)
        else ("b", (0 : Int), false))) ∧
    (run_agg [("b", (0 : Int), false), ("a", (200 : Int), true)]).tested = 2 :=
  ⟨by decide,
    (counters_count_outcomes ["a", "b"]
      (fun w => if w = "a" then ("a", (200 : Int), true)
        else ("b", (0 : Int), false))
      [("b", (0 : Int), false), ("a", (200 : Int), true)] (by decide)).1⟩

/-- C7 counterexample: on the successful outcome with status 200 and
`content_length = 0`, the simple criterion of `src/main.py` accepts
(`status != 404`) but the filter-based classifier instantiated with empty
include list, `exclude_status_codes = [404]`, `min_content_length = 0` and no
keywords rejects (`content_length <= min_content_length`). -/
theorem simple_vs_filters_disagree :
    simple_accept 200 true = true ∧
    is_valid_result ⟨[], [404], 0, []⟩
      ⟨"http://x.test/a", .httpStatus 200, 0, some []⟩ = some false := by
  constructor
  · rfl
  · rfl

/-- C7 amended: for successful outcomes whose `content_length` is strictly
positive, the simple `status != 404` criterion and the filter-based classifier
instantiated with empty include list, `exclude_status_codes = [404]`,
`min_content_length = 0` and no keywords give the same verdict (at
`content_length = 0` they disagree: the classifier rejects, the simple
criterion does not). -/
theorem simple_vs_filters_agree (n : Int) (url : String) (len : Nat)
    (body : List Nat) (hlen : 0 < len) :
    (simple_accept n true = true ↔
      is_valid_result ⟨[], [404], 0, []⟩
        ⟨url, .httpStatus n, len, some body⟩ = some true) := by
  have hne : ¬ ((len : Int) ≤ (0 : Int)) := by omega
  by_cases h : n = 404
  · subst h
    simp [simple_accept, is_valid_result, hne]
  · simp [simple_accept, is_valid_result, hne, h, keywordScan]

/-- Witness for `simple_vs_filters_agree` at status 200, length 5. -/
theorem simple_vs_filters_agree_witness :
    0 < 5 ∧
      (simple_accept 200 true = true ↔
        is_valid_result ⟨[], [404], 0, []⟩
          ⟨"u", .httpStatus 200, 5, some []⟩ = some true) :=
  ⟨by decide, simple_vs_filters_agree 200 "u" 5 [] (by decide)⟩

/-- C5: the target generator emits exactly one URL per wordlist line that is
non-empty after trimming (lines empty after trimming are skipped), and the
i-th target is the base joined to the i-th surviving line's trimmed text with
exactly one `/`; every surviving segment is non-empty. -/
theorem targets_one_per_word (base : String) (lines : List String) :
    (scan_targets base lines).length =
      (lines.filter (fun l => decide (pyStrip l ≠ ""))).length ∧
    (∀ i : Nat, (scan_targets base lines)[i]? =
      ((lines.filter (fun l => decide (pyStrip l ≠ "")))[i]?).map
        (fun l => base ++ "/" ++ pyStrip l)) ∧
    ∀ w ∈ load_words lines, w ≠ "" := by
  refine ⟨?_, ?_, ?_⟩
  · simp [scan_targets, load_words]
  · intro i
    simp only [scan_targets, load_words, List.getElem?_map, Option.map_map]
    rfl
  · intro w hw
    rw [load_words, List.mem_map] at hw
    obtain ⟨l, hl, rfl⟩ := hw
    have := List.of_mem_filter hl
    simpa using this

/-- Witness for `targets_one_per_word`: a concrete wordlist with a blank and a
padded line. -/
theorem targets_one_per_word_witness :
    pyStrip " admin " ∈ load_words ["", " admin "] ∧ (pyStrip " admin " ≠ "") :=
  ⟨by decide,
    (targets_one_per_word "http://x.test" ["", " admin "]).2.2
      (pyStrip " admin ") (by decide)⟩

/-- C4 counterexample: with the wordlist resource missing, `URLScanner.run`
issues zero requests but ends with process exit status 0 — the
`except FileNotFoundError` branch logs and returns normally instead of
forcing a non-zero exit. -/
theorem scanner_missing_wordlist_exits_zero :
    scanner_run ⟨[], [], 0, []⟩ "http://x.test" none (fun _ => .timedOut) =
      (0, 0, []) := rfl

/-- C4 amended: a missing wordlist causes zero network requests in both
implementations; the threaded `URLTester` exits fatally with status 1 before
any request, while the async `URLScanner.run` returns normally (exit status
stays 0); successful completion, even with zero accepted results, yields exit
status 0. -/
theorem missing_wordlist_behavior (f : FilterConfig) (base : String)
    (net : String → NetResult) (probe : String → String × Int × Bool) :
    (main_run none probe).1 = 1 ∧
    (main_run none probe).2.1 = 0 ∧
    (∀ lines, (main_run (some lines) probe).1 = 0) ∧
    (scanner_run f base none net).1 = 0 ∧
    (scanner_run f base none net).2.1 = 0 :=
  ⟨rfl, rfl, fun _ => rfl, rfl, rfl⟩

/-- Helper: `List.all` is invariant under permutation of the list. -/
theorem perm_all_eq {α : Type} (p : α → Bool) {l₁ l₂ : List α}
    (h : List.Perm l₁ l₂) : l₁.all p = l₂.all p := by
  induction h with
  | nil => rfl
  | cons x _ ih => simp [List.all_cons, ih]
  | swap x y l => cases hx : p x <;> cases hy : p y <;> simp [List.all_cons, hx, hy]
  | trans _ _ ih₁ ih₂ => rw [ih₁, ih₂]

/-- C9: on any probe outcome (which always carries a body, possibly empty) and
any filter configuration, the classifier's verdict is exactly the conjunction
of its five rules evaluated independently, and evaluating the rules in any
order (any permutation of the fixed source order) yields the same boolean. -/
theorem classifier_is_rule_conjunction (f : FilterConfig) (url : String)
    (s : PStatus) (len : Nat) (body : List Nat) :
    (is_valid_result f ⟨url, s, len, some body⟩ =
      some (rules_in_order.all (evalRule f ⟨url, s, len, some body⟩))) ∧
    ∀ l : List Rule, List.Perm l rules_in_order →
      l.all (evalRule f ⟨url, s, len, some body⟩) =
        rules_in_order.all (evalRule f ⟨url, s, len, some body⟩) := by
  constructor
  · cases s with
    | timeout => simp [is_valid_result, rules_in_order, evalRule]
    | networkError => simp [is_valid_result, rules_in_order, evalRule]
    | httpStatus n =>
      simp only [is_valid_result]
      by_cases h1 : f.include_status_codes ≠ [] ∧ n ∉ f.include_status_codes
      · rw [if_pos h1]
        have e1 : decide (f.include_status_codes = []) = false := by
          simpa using h1.1
        have e2 : statusMem (.httpStatus n) f.include_status_codes = false := by
          simp [statusMem, h1.2]
        simp [rules_in_order, evalRule, e1, e2]
      · rw [if_neg h1]
        push_neg at h1
        have e2 : (decide (f.include_status_codes = []) ||
            statusMem (.httpStatus n) f.include_status_codes) = true := by
          by_cases hinc : f.include_status_codes = []
          · simp [hinc]
          · simp [statusMem, h1 hinc]
        by_cases h2 : n ∈ f.exclude_status_codes
        · rw [if_pos h2]
          simp [rules_in_order, evalRule, statusMem, h2]
        · rw [if_neg h2]
          by_cases h3 : (len : Int) ≤ f.min_content_length
          · rw [if_pos h3]
            have e3 : decide (f.min_content_length < (len : Int)) = false := by
              simpa using h3
            simp [rules_in_order, evalRule, e3]
          · rw [if_neg h3]
            rw [keywordScan_some]
            have e3 : decide (f.min_content_length < (len : Int)) = true := by
              simp only [decide_eq_true_eq]
              omega
            have e4 : statusMem (PStatus.httpStatus n) f.exclude_status_codes
                = false := by
              simp [statusMem, h2]
            simp only [rules_in_order, List.all_cons, List.all_nil, evalRule,
              e2, e3, e4, Option.getD, Bool.true_and, Bool.and_true,
              Bool.not_false]
  · intro l hl
    exact perm_all_eq _ hl

/-- Witness for `classifier_is_rule_conjunction`: the five rules evaluated in
reverse order on a concrete outcome and filter set agree with the source
order. -/
theorem classifier_is_rule_conjunction_witness :
    List.Perm [Rule.keywordSearch, Rule.minLength, Rule.excludeList,
        Rule.includeList, Rule.statusIsInt] rules_in_order ∧
      ([Rule.keywordSearch, Rule.minLength, Rule.excludeList,
          Rule.includeList, Rule.statusIsInt].all
        (evalRule ⟨[200], [404], 0, [[97]]⟩
          ⟨"u", .httpStatus 200, 3, some [98]⟩) =
      rules_in_order.all
        (evalRule ⟨[200], [404], 0, [[97]]⟩
          ⟨"u", .httpStatus 200, 3, some [98]⟩)) :=
  ⟨by decide,
    (classifier_is_rule_conjunction ⟨[200], [404], 0, [[97]]⟩ "u"
        (.httpStatus 200) 3 [98]).2
      [Rule.keywordSearch, Rule.minLength, Rule.excludeList,
        Rule.includeList, Rule.statusIsInt] (by decide)⟩

/-- Helper: every state reachable from the initial scheduler state keeps the
semaphore accounting `permits + |inFlight| = N` and conserves the multiset of
work: pending and in-flight targets (as their future outcomes) together with
finished outcomes always equal the initial workload. -/
theorem sched_invariant (F : String → FetchResult) (targets : List String)
    (n : Nat) (s : Sched)
    (h : Relation.ReflTransGen (SchedStep F) (initSched targets n) s) :
    s.permits + s.inFlight.length = n ∧
    ((s.waiting.map F : Multiset FetchResult) + ↑(s.inFlight.map F) + ↑s.done
      = ↑(targets.map F)) := by
  induction h with
  | refl => simp [initSched]
  | tail _ hstep ih =>
    cases hstep with
    | start t w fl d p =>
      refine ⟨?_, ?_⟩
      · have := ih.1
        simp only [List.length_cons] at this ⊢
        omega
      · have hm := ih.2
        simp only [List.map_cons, ← Multiset.cons_coe, Multiset.cons_add,
          Multiset.add_cons] at hm ⊢
        exact hm
    | finish w fl₁ t fl₂ d p =>
      refine ⟨?_, ?_⟩
      · have := ih.1
        simp only [List.length_append, List.length_cons] at this ⊢
        omega
      · have hm := ih.2
        simp only [List.map_append, List.map_cons, ← Multiset.coe_add,
          ← Multiset.cons_coe, Multiset.cons_add, Multiset.add_cons]
          at hm ⊢
        exact hm

/-- C2: under the semaphore-gated dispatch of `URLScanner.run`, every
reachable state has at most `N` requests in flight, and a run that completes
(no waiting and no in-flight targets left) has produced exactly one outcome
per target: `K` outcomes for a `K`-word list, none lost, none duplicated (the
finished outcomes are a permutation of the per-target outcomes). -/
theorem bounded_concurrency_and_completeness (F : String → FetchResult)
    (targets : List String) (n : Nat) (s : Sched)
    (hn : n ≤ targets.length)
    (hreach : Relation.ReflTransGen (SchedStep F) (initSched targets n) s) :
    s.inFlight.length ≤ n ∧
    (s.waiting = [] → s.inFlight = [] →
      s.done.length = targets.length ∧
        List.Perm s.done (targets.map F)) := by
  have hinv := sched_invariant F targets n s hreach
  constructor
  · omega
  · intro hw hf
    have hm := hinv.2
    rw [hw, hf] at hm
    simp only [List.map_nil] at hm
    have hperm : List.Perm s.done (targets.map F) := by
      rw [← Multiset.coe_eq_coe]
      simpa using hm
    exact ⟨by rw [hperm.length_eq, List.length_map], hperm⟩

/-- Witness for `bounded_concurrency_and_completeness`: a concrete complete
run of two targets under concurrency bound 1, finishing each request before
the next may start. -/
theorem bounded_concurrency_witness :
    1 ≤ 2 ∧
    ((⟨[], [], [probeF "b", probeF "a"], 1⟩ : Sched).inFlight.length ≤ 1 ∧
      ((⟨[], [], [probeF "b", probeF "a"], 1⟩ : Sched).waiting = [] →
        (⟨[], [], [probeF "b", probeF "a"], 1⟩ : Sched).inFlight = [] →
        (⟨[], [], [probeF "b", probeF "a"], 1⟩ : Sched).done.length =
            (["a", "b"] : List String).length ∧
          List.Perm (⟨[], [], [probeF "b", probeF "a"], 1⟩ : Sched).done
            ((["a", "b"] : List String).map probeF))) :=
  ⟨by decide,
    bounded_concurrency_and_completeness probeF ["a", "b"] 1
      ⟨[], [], [probeF "b", probeF "a"], 1⟩ (by decide)
      (Relation.ReflTransGen.head (SchedStep.start "a" ["b"] [] [] 0)
        (Relation.ReflTransGen.head (SchedStep.finish ["b"] [] "a" [] [] 0)
          (Relation.ReflTransGen.head (SchedStep.start "b" [] [] [probeF "a"] 0)
            (Relation.ReflTransGen.head
              (SchedStep.finish [] [] "b" [] [probeF "a"] 0)
              Relation.ReflTransGen.refl))))⟩
